import Mathlib

/-!
Verification of `open_mail_tester.py` (ernw/open_mail_relay_tester).

Shallow embedding: each Python function that the claims touch is translated
into a Lean definition over explicit data.  Network side effects are modelled
as event traces (`NetEvent`, `RunEvent`); the byte stream read from a socket
is modelled as a finite list of characters followed by end-of-stream; fuel
makes the `recvline` loop total while letting us state its divergence.
-/

namespace OpenMailRelay

/-! ## Transport layer -/

/-- Low-level network events emitted by the transport layer, in order.
`connectTo a p` models `socket.create_connection((a, p), timeout)`,
`send d` models `sock.sendall(d.encode())`, `recvLine` models one call of
`recvline(sock)`, and `smtpCmd` models an SMTP command being put on the
wire by the protocol session. -/
inductive NetEvent where
  | connectTo (address : String) (port : Nat)
  | send (data : String)
  | recvLine
  | smtpCmd (verb : String) (arg : String)
deriving DecidableEq, Repr

def NetEvent.isSend : NetEvent → Bool
  | .send _ => true
  | _ => false

def NetEvent.isRecvLine : NetEvent → Bool
  | .recvLine => true
  | _ => false

def NetEvent.isSmtpCmd : NetEvent → Bool
  | .smtpCmd _ _ => true
  | _ => false

/-- Proxy attributes `p_address` / `p_port`, set on the SMTP object from the
environment variable `http_proxy` when it is present. -/
structure ProxyConfig where
  p_address : String
  p_port : Nat
deriving DecidableEq, Repr

/-- Trace of `ProxyMixin._get_socket(self, port, host, timeout)`.

The Python source names its positional parameters `port, host` in that
order, but `smtplib.SMTP.connect` invokes `self._get_socket(host, port,
timeout)` with the target host first; hence the binder named `port` below
receives the target host (a string) and the binder named `host` receives
the target port (an integer), exactly as in the source.  With no proxy
attributes set, the method defers to `smtplib`'s own `_get_socket`, a
direct `socket.create_connection` to the target.  With a proxy configured
it connects to the proxy, sends the single string
`"CONNECT " + port + ":" + str(host) + " HTTP/1.1\r\n\r\n"`
(the result of the source's format call), then calls `recvline` twice
discarding both results, and returns the socket. -/
def ProxyMixin_get_socket (proxy : Option ProxyConfig) (port : String) (host : Nat) :
    List NetEvent :=
  match proxy with
  | none => [.connectTo port host]
  | some cfg =>
      [.connectTo cfg.p_address cfg.p_port,
       .send ("CONNECT " ++ port ++ ":" ++ toString host ++ " HTTP/1.1" ++ "\r\n" ++ "\r\n"),
       .recvLine,
       .recvLine]

/-- One step of `recvline`'s `while True` loop, with fuel.

`line` is the accumulator `line`, `stream` the bytes the peer will still
deliver; when `stream` is exhausted the peer has closed the connection and
`sock.recv(1)` returns the empty byte string `b''`, which is not equal to
a newline and leaves `line` unchanged, so the loop repeats with an
identical state.  The source has no fuel: `none` here means the Python
loop makes no further progress and never returns. -/
def recvlineFuel : Nat → List Char → List Char → Option (List Char × List Char)
  | 0, _, _ => none
  | fuel + 1, line, [] => recvlineFuel fuel line []
  | fuel + 1, line, b :: rest =>
      if b = '\n' then some (line ++ [b], rest)
      else recvlineFuel fuel (line ++ [b]) rest

/-! ## Disabled address quoting -/

/-- The module-level monkey patch `smtplib.quoteaddr = lambda a: ...` from
the source: the address string is wrapped in one pair of angle brackets
with no parsing, escaping or normalization. -/
def quoteaddr (a : String) : String := "<" ++ a ++ ">"

/-- Modelled from the spec: the standard SMTP client building block
(`smtplib.SMTP.mail`, out of scope of the repository source) places
`"FROM:" + quoteaddr(sender)` on the wire as the argument of the `MAIL`
verb. -/
def mailFromArg (sender : String) : String := "FROM:" ++ quoteaddr sender

/-- Modelled from the spec: the standard SMTP client building block
(`smtplib.SMTP.rcpt`, out of scope of the repository source) places
`"TO:" + quoteaddr(recipient)` on the wire as the argument of the `RCPT`
verb. -/
def rcptToArg (recipient : String) : String := "TO:" ++ quoteaddr recipient

/-! ## Response classification -/

/-- The exception type raised by `TestCase.assertNo5xx`, carrying the
response code and message. -/
structure SMTPError where
  code : Int
  msg : String
deriving DecidableEq, Repr

/-- `TestCase.assertNo5xx` given the `(code, msg)` pair returned by the
underlying SMTP command: raises `SMTPError(code, msg)` when
`code // 100 == 5` (Python floor division), otherwise returns the pair
unchanged. -/
def TestCase.assertNo5xx (code : Int) (msg : String) : Except SMTPError (Int × String) :=
  if Int.fdiv code 100 = 5 then .error ⟨code, msg⟩ else .ok (code, msg)

/-! ## Variant address derivations

Python strings are modelled as lists of characters; `str.split(sep)` for a
one-character separator is `List.splitOn sep`, `sep.join(parts)` is
`List.intercalate sep.toList parts`, `reversed` is `List.reverse`, and
indexing a nonempty list at 0 is `List.headI`. -/

/-- `LocalTest.get_sender`: returns `self.local_addr` unchanged. -/
def LocalTest.get_sender (local_addr : List Char) : List Char := local_addr

/-- `BangPathTest.get_rcpt`: the source returns
`'!'.join(reversed(self.remote_addr.split('@')))`. -/
def BangPathTest.get_rcpt (remote_addr : List Char) : List Char :=
  List.intercalate ['!'] (remote_addr.splitOn '@').reverse

/-- `AddressTest.get_sender`: the source computes
`addr = socket.gethostbyname(self.host)` and then returns the format call
`'(0)@[@]'.format(self.local_addr.split('@')[0], addr)` — written here
with `(0)` standing for the single brace placeholder of the format
string.  The format string contains exactly one placeholder, so Python's
`str.format` substitutes `self.local_addr.split('@')[0]` for it and
silently ignores the second argument `addr`; the characters `@[@]` are
literal text.  `addr`, the result of the DNS lookup, is a parameter here
so that its absence from the output can be stated. -/
def AddressTest.get_sender (addr : List Char) (local_addr : List Char) : List Char :=
  (local_addr.splitOn '@').headI ++ "@[@]".toList

/-! ## Protocol session and runner

A test case drives the six SMTP steps in a fixed order.  The remote
server's behaviour at one step is either a reply `(code, msg)` — which
`assertNo5xx` classifies — or the raising of some exception other than
`SMTPError` (connection reset, DNS failure, timeout, ...), modelled as
`raiseOther`.  `run_tests`'s loop body is
`try: s.setup(); s.test() / except SMTPError: record FAIL /
else: record SUCCESS / finally: s.teardown()`: an `SMTPError` is caught
and recorded, any other exception runs the `finally` clause and then
propagates, aborting the whole batch. -/

/-- The six SMTP steps of one test case, in source order:
`setup` issues `connect`, `ehlo`, `rset`; `test` issues `mail`, `rcpt`,
`data`; every one is wrapped in `assertNo5xx`. -/
inductive Step where
  | connect | ehlo | rset | mail | rcpt | data
deriving DecidableEq, Repr

def setup_steps : List Step := [.connect, .ehlo, .rset]

def test_steps : List Step := [.mail, .rcpt, .data]

/-- All steps of `TestCase.setup` followed by `TestCase.test`. -/
def session_steps : List Step := setup_steps ++ test_steps

/-- The server's behaviour at one step. -/
inductive StepResult where
  | reply (code : Int) (msg : String)
  | raiseOther (name : String)
deriving DecidableEq, Repr

/-- An exception escaping one SMTP step: either the `SMTPError` raised by
`assertNo5xx`, or any other exception. -/
inductive Exn where
  | smtp (code : Int) (msg : String)
  | other (name : String)
deriving DecidableEq, Repr

/-- Execute one step: a server reply goes through `assertNo5xx`; any other
exception propagates as is. -/
def execStep (r : StepResult) : Except Exn (Int × String) :=
  match r with
  | .reply c m =>
      match TestCase.assertNo5xx c m with
      | .error e => .error (.smtp e.code e.msg)
      | .ok v => .ok v
  | .raiseOther n => .error (.other n)

/-- Run a list of steps in order against server behaviour `resp`,
stopping at the first step whose execution raises.  Returns the list of
steps that actually executed (the raising step included) and the
exception, if any. -/
def runBody (resp : Step → StepResult) : List Step → List Step × Option Exn
  | [] => ([], none)
  | s :: rest =>
      match execStep (resp s) with
      | .error e => ([s], some e)
      | .ok _ =>
          let r := runBody resp rest
          (s :: r.1, r.2)

/-- Observable events of the runner's loop body for one variant. -/
inductive RunEvent where
  | stepRun (variant : String) (s : Step)
  | recordFail (variant : String)
  | recordSuccess (variant : String)
  | teardownRun (variant : String)
deriving DecidableEq, Repr

/-- One iteration of the `run_tests` loop for the variant named `v`:
run `setup` then `test`; on clean completion the `else` clause records
success, on `SMTPError` the `except` clause records failure, and in both
cases the exception is consumed; any other exception is not caught.  The
`finally` clause runs `s.teardown()` — `quit()` then `close()` — on every
one of the three paths; on the uncaught path the exception then
propagates (second component `some _`). -/
def runVariant (v : String) (resp : Step → StepResult) : List RunEvent × Option Exn :=
  let r := runBody resp session_steps
  let evs := r.1.map (RunEvent.stepRun v)
  match r.2 with
  | none => (evs ++ [.recordSuccess v, .teardownRun v], none)
  | some (.smtp _ _) => (evs ++ [.recordFail v, .teardownRun v], none)
  | some (.other n) => (evs ++ [.teardownRun v], some (.other n))

/-- The `for` loop of `run_tests` over the (already baseline-adjusted)
registry, given the server's behaviour per variant name.  A propagating
exception aborts the loop: no later variant produces any event. -/
def run_tests (server : String → Step → StepResult) : List String → List RunEvent × Option Exn
  | [] => ([], none)
  | v :: vs =>
      let r := runVariant v (server v)
      match r.2 with
      | none =>
          let rest := run_tests server vs
          (r.1 ++ rest.1, rest.2)
      | some e => (r.1, some e)

/-! ## Registry and progress numbering -/

/-- The module-level `TESTS` registry, in source order, one entry per
registered class name. -/
def TESTS : List String :=
  ["DefaultTest", "BogusLocalTest", "LocalTest", "LocalhostTest",
   "UseronlyTest", "NullTest", "PercentRemoteTest", "KnownTest",
   "EmptyHostTest", "AddressTest", "HostDomainTest", "NonexistingEhloTest",
   "EhloOverflowTest", "BangPathTest", "SourceRouting", "SourceRouting2",
   "SourceRoutingPercent"]

/-- Effect of `run_tests(..., base_test=...)` on the module-level `TESTS`
registry: `TESTS.insert(0, BaseTest)` mutates the shared list in place,
prepending `BaseTest`; nothing in the rest of `run_tests` writes to the
registry, so this is the registry state after the call returns. -/
def run_tests_registry (base_test : Bool) (tests : List String) : List String :=
  if base_test then "BaseTest" :: tests else tests

/-- Python's `enumerate(l, 1)`. -/
def enumerate1 (l : List String) : List (Nat × String) := l.enumFrom 1

/-- The per-variant progress sequence emitted by `run_tests`'s loop:
`for i, test in enumerate(TESTS, 1)` over the registry as adjusted by the
`base_test` flag at start of run, pairing each variant with its emitted
1-based index. -/
def progressSeq (base_test : Bool) (tests : List String) : List (Nat × String) :=
  enumerate1 (run_tests_registry base_test tests)

/-! ## Step classification helpers and concrete behaviours used in
evaluations -/

/-- The server replied (no exception below the SMTP response layer). -/
def StepResult.isReply : StepResult → Bool
  | .reply _ _ => true
  | .raiseOther _ => false

/-- The server replied with a status code in the range 500..599. -/
def StepResult.is5xxReply : StepResult → Bool
  | .reply c _ => decide (500 ≤ c ∧ c ≤ 599)
  | .raiseOther _ => false

/-- The server replied with a status code outside the range 500..599. -/
def StepResult.isOkReply : StepResult → Bool
  | .reply c _ => decide (¬(500 ≤ c ∧ c ≤ 599))
  | .raiseOther _ => false

/-- Concrete behaviour: every command of every variant is answered 250. -/
def serverOk : String → Step → StepResult := fun _ _ => .reply 250 "ok"

/-- Concrete behaviour: every command succeeds except `rcpt`, which is
answered 550. -/
def respW : Step → StepResult :=
  fun s => if s = .rcpt then .reply 550 "denied" else .reply 250 "ok"

/-- Concrete behaviour: the variant named "A" hits a non-SMTPError
exception at `connect`; every other variant is answered 250. -/
def serverAbort : String → Step → StepResult :=
  fun v _ => if v = "A" then .raiseOther "ConnectionRefusedError" else .reply 250 "ok"

/-! ## Helper lemmas -/

/-- Python's `code // 100 == 5` test is exactly membership in 500..599. -/
theorem fdiv_hundred_eq_five_iff (c : Int) : Int.fdiv c 100 = 5 ↔ 500 ≤ c ∧ c ≤ 599 := by
  rw [Int.fdiv_eq_ediv c (by norm_num : (0 : Int) ≤ 100)]
  omega

theorem execStep_of_okReply {r : StepResult} (h : r.isOkReply = true) :
    ∃ c m, r = .reply c m ∧ execStep r = .ok (c, m) := by
  cases r with
  | reply c m =>
      refine ⟨c, m, rfl, ?_⟩
      have hc : ¬(500 ≤ c ∧ c ≤ 599) := by
        simp only [StepResult.isOkReply, decide_eq_true_eq] at h
        exact h
      have hf : ¬Int.fdiv c 100 = 5 := fun hf => hc ((fdiv_hundred_eq_five_iff c).mp hf)
      simp [execStep, TestCase.assertNo5xx, hf]
  | raiseOther n => simp [StepResult.isOkReply] at h

theorem execStep_of_5xxReply {r : StepResult} (h : r.is5xxReply = true) :
    ∃ c m, r = .reply c m ∧ 500 ≤ c ∧ c ≤ 599 ∧ execStep r = .error (.smtp c m) := by
  cases r with
  | reply c m =>
      have hc : 500 ≤ c ∧ c ≤ 599 := by simpa [StepResult.is5xxReply] using h
      refine ⟨c, m, rfl, hc.1, hc.2, ?_⟩
      simp [execStep, TestCase.assertNo5xx, (fdiv_hundred_eq_five_iff c).mpr hc]
  | raiseOther n => simp [StepResult.is5xxReply] at h

theorem runBody_all_ok (resp : Step → StepResult) :
    ∀ l : List Step, (∀ s ∈ l, (resp s).isOkReply = true) → runBody resp l = (l, none) := by
  intro l
  induction l with
  | nil => intro _; rfl
  | cons s rest ih =>
      intro h
      obtain ⟨c, m, _, hex⟩ := execStep_of_okReply (h s (by simp))
      simp [runBody, hex, ih fun t ht => h t (by simp [ht])]

theorem runBody_first_5xx (resp : Step → StepResult) :
    ∀ pre : List Step, ∀ s : Step, ∀ post : List Step,
      (∀ t ∈ pre, (resp t).isOkReply = true) → (resp s).is5xxReply = true →
      ∃ c m, runBody resp (pre ++ s :: post) = (pre ++ [s], some (.smtp c m)) := by
  intro pre
  induction pre with
  | nil =>
      intro s post _ hs
      obtain ⟨c, m, _, _, _, hex⟩ := execStep_of_5xxReply hs
      exact ⟨c, m, by simp [runBody, hex]⟩
  | cons t rest ih =>
      intro s post h hs
      obtain ⟨c0, m0, _, hex⟩ := execStep_of_okReply (h t (by simp))
      obtain ⟨c, m, hrb⟩ := ih s post (fun u hu => h u (by simp [hu])) hs
      exact ⟨c, m, by simp [runBody, hex, hrb]⟩

theorem runBody_no_other (resp : Step → StepResult) (h : ∀ s, (resp s).isReply = true) :
    ∀ l : List Step, ∀ n, (runBody resp l).2 ≠ some (.other n) := by
  intro l
  induction l with
  | nil => intro n hn; simp [runBody] at hn
  | cons s rest ih =>
      intro n hn
      have hs := h s
      cases hr : resp s with
      | reply c m =>
          by_cases h5 : Int.fdiv c 100 = 5
          · simp [runBody, execStep, hr, TestCase.assertNo5xx, h5] at hn
          · simp [runBody, execStep, hr, TestCase.assertNo5xx, h5] at hn
            exact ih n hn
      | raiseOther nm => simp [StepResult.isReply, hr] at hs

theorem runVariant_no_other (v : String) (resp : Step → StepResult)
    (h : ∀ s, (resp s).isReply = true) : (runVariant v resp).2 = none := by
  unfold runVariant
  cases hr : (runBody resp session_steps).2 with
  | none => simp [hr]
  | some e =>
      cases e with
      | smtp c m => simp [hr]
      | other n => exact absurd hr (runBody_no_other resp h session_steps n)

theorem run_tests_all_reply (server : String → Step → StepResult)
    (h : ∀ u s, (server u s).isReply = true) :
    ∀ names : List String,
      run_tests server names =
        ((names.map fun u => (runVariant u (server u)).1).flatten, none) := by
  intro names
  induction names with
  | nil => rfl
  | cons v vs ih =>
      have hv := runVariant_no_other v (server v) (h v)
      simp [run_tests, hv, ih]

theorem enumFrom_map_snd {α : Type} (n : Nat) (l : List α) :
    (l.enumFrom n).map Prod.snd = l := by
  induction l generalizing n with
  | nil => rfl
  | cons a t ih => simp [List.enumFrom, ih]

theorem enumFrom_shift {α : Type} (n : Nat) (l : List α) :
    l.enumFrom (n + 1) = (l.enumFrom n).map fun p => (p.1 + 1, p.2) := by
  induction l generalizing n with
  | nil => rfl
  | cons a t ih => simp [List.enumFrom, ih]

theorem recvlineFuel_no_newline (fuel : Nat) :
    ∀ line stream, (∀ b ∈ stream, b ≠ '\n') → recvlineFuel fuel line stream = none := by
  induction fuel with
  | zero => intro _ _ _; rfl
  | succ n ih =>
      intro line stream h
      cases stream with
      | nil => exact ih line [] h
      | cons b rest =>
          have hb : ¬b = '\n' := h b (by simp)
          simp only [recvlineFuel, if_neg hb]
          exact ih (line ++ [b]) rest fun x hx => h x (by simp [hx])

/-! ## Claim theorems -/

/-- C1: when an HTTP proxy is configured, `ProxyMixin._get_socket` (invoked
by the SMTP client with the target host as first positional argument and
the target port as second) opens a connection to the proxy, sends exactly
one HTTP request line `CONNECT <target_host>:<target_port> HTTP/1.1`
terminated by an empty line, then reads and discards exactly two response
lines before returning the socket; no SMTP command appears anywhere in the
transport trace, so all of this happens before any SMTP command is sent. -/
theorem proxy_connect_trace (cfg : ProxyConfig) (target_host : String) (target_port : Nat) :
    ProxyMixin_get_socket (some cfg) target_host target_port =
      [NetEvent.connectTo cfg.p_address cfg.p_port,
       NetEvent.send ("CONNECT " ++ target_host ++ ":" ++ toString target_port ++
         " HTTP/1.1" ++ "\r\n" ++ "\r\n"),
       NetEvent.recvLine, NetEvent.recvLine] ∧
    (ProxyMixin_get_socket (some cfg) target_host target_port).countP NetEvent.isSend = 1 ∧
    (ProxyMixin_get_socket (some cfg) target_host target_port).countP NetEvent.isRecvLine = 2 ∧
    ∀ e ∈ ProxyMixin_get_socket (some cfg) target_host target_port,
      NetEvent.isSmtpCmd e = false := by
  refine ⟨rfl, ?_, ?_, ?_⟩ <;>
    simp [ProxyMixin_get_socket, List.countP_cons, NetEvent.isSend, NetEvent.isRecvLine,
      NetEvent.isSmtpCmd]

/-- Witness for C1 at a concrete proxy, host and port. -/
theorem proxy_connect_trace_witness :
    ProxyMixin_get_socket (some ⟨"proxy.local", 3128⟩) "mail.example" 25 =
      [NetEvent.connectTo "proxy.local" 3128,
       NetEvent.send ("CONNECT " ++ "mail.example" ++ ":" ++ toString 25 ++
         " HTTP/1.1" ++ "\r\n" ++ "\r\n"),
       NetEvent.recvLine, NetEvent.recvLine] ∧
    NetEvent.isSmtpCmd (NetEvent.connectTo "proxy.local" 3128) = false :=
  ⟨(proxy_connect_trace ⟨"proxy.local", 3128⟩ "mail.example" 25).1,
   (proxy_connect_trace ⟨"proxy.local", 3128⟩ "mail.example" 25).2.2.2
     (NetEvent.connectTo "proxy.local" 3128) (by simp [ProxyMixin_get_socket])⟩

/-- C4: `assertNo5xx` raises an `SMTPError` carrying the response's code
and message exactly when the code lies in 500..599; for every other code
the step succeeds and returns the code and message unchanged. -/
theorem assertNo5xx_raises_iff_5xx (code : Int) (msg : String) :
    (TestCase.assertNo5xx code msg = .error ⟨code, msg⟩ ↔ 500 ≤ code ∧ code ≤ 599) ∧
    (¬(500 ≤ code ∧ code ≤ 599) → TestCase.assertNo5xx code msg = .ok (code, msg)) := by
  have h := fdiv_hundred_eq_five_iff code
  constructor
  · constructor
    · intro he
      by_contra hc
      rw [TestCase.assertNo5xx, if_neg fun hf => hc (h.mp hf)] at he
      exact Except.noConfusion he
    · intro hc
      rw [TestCase.assertNo5xx, if_pos (h.mpr hc)]
  · intro hc
    rw [TestCase.assertNo5xx, if_neg fun hf => hc (h.mp hf)]

/-- Witness for C4 at concrete codes 550 and 250. -/
theorem assertNo5xx_raises_iff_5xx_witness :
    (TestCase.assertNo5xx 550 "no" = .error ⟨550, "no"⟩) ∧
    (TestCase.assertNo5xx 250 "ok" = .ok (250, "ok")) :=
  ⟨(assertNo5xx_raises_iff_5xx 550 "no").1.mpr (by decide),
   (assertNo5xx_raises_iff_5xx 250 "ok").2 (by decide)⟩

/-- C7, against the code: when the proxy's response stream ends (the peer
closes the connection, so `sock.recv(1)` returns the empty byte string)
before a newline is delivered, `recvline` does not surface an I/O failure:
its loop makes no further progress and never returns, whatever amount of
fuel is granted.  Stated both for a stream that ends immediately and for
one that ends after a partial status line. -/
theorem recvline_diverges_on_truncated_response (fuel : Nat) :
    recvlineFuel fuel [] [] = none ∧
    recvlineFuel fuel [] ("HTTP/1.1 200 Connection established".toList) = none :=
  ⟨recvlineFuel_no_newline fuel [] [] (by simp),
   recvlineFuel_no_newline fuel [] _ (by decide)⟩

/-- C3 counterexample: the patched quoting function wraps the derived
address in angle brackets, so the address field on the wire is not the
derived string itself: for the bang-path recipient `example.com!user` the
`RCPT` argument is `TO:<example.com!user>`, not `TO:example.com!user`. -/
theorem quoteaddr_wraps_counterexample :
    quoteaddr "example.com!user" = "<example.com!user>" ∧
    quoteaddr "example.com!user" ≠ "example.com!user" ∧
    rcptToArg "example.com!user" ≠ "TO:example.com!user" :=
  ⟨rfl, by decide, by decide⟩

/-- C3 amended: every derived sender and recipient reaches the wire with
no parsing, quoting or normalization applied, but wrapped in exactly one
pair of angle brackets — the `MAIL` argument is `FROM:<derived>` and the
`RCPT` argument is `TO:<derived>`, with the derived string appearing
character-for-character between the brackets, so deliberately malformed
addresses are preserved verbatim inside the brackets. -/
theorem addresses_verbatim_inside_brackets (s : String) :
    mailFromArg s = "FROM:" ++ ("<" ++ s ++ ">") ∧
    rcptToArg s = "TO:" ++ ("<" ++ s ++ ">") ∧
    (quoteaddr s).toList = '<' :: (s.toList ++ ['>']) := by
  refine ⟨rfl, rfl, ?_⟩
  simp [quoteaddr]

/-- Witness for the C3 amended claim at a bang-path address. -/
theorem addresses_verbatim_inside_brackets_witness :
    mailFromArg "host!user" = "FROM:" ++ ("<" ++ "host!user" ++ ">") ∧
    rcptToArg "host!user" = "TO:" ++ ("<" ++ "host!user" ++ ">") ∧
    (quoteaddr "host!user").toList = '<' :: ("host!user".toList ++ ['>']) :=
  addresses_verbatim_inside_brackets "host!user"

/-- C2, against the code: `AddressTest.get_sender`'s format string has a
single placeholder, so the resolved IP address passed as second argument
never reaches the output: for local address `bob@mail.example` and a
target that resolves to `192.0.2.1` the derived sender is the literal
`bob@[@]`, not `bob@[192.0.2.1]`, and the output is the same whatever the
DNS lookup returns. -/
theorem addressTest_sender_omits_ip :
    AddressTest.get_sender ("192.0.2.1".toList) ("bob@mail.example".toList) =
      "bob@[@]".toList ∧
    AddressTest.get_sender ("192.0.2.1".toList) ("bob@mail.example".toList) ≠
      "bob@[192.0.2.1]".toList ∧
    ∀ addr1 addr2 : List Char,
      AddressTest.get_sender addr1 ("bob@mail.example".toList) =
        AddressTest.get_sender addr2 ("bob@mail.example".toList) :=
  ⟨by decide, by decide, fun _ _ => rfl⟩

/-- C5: for every variant's test case, if every one of the six SMTP steps
is answered with a non-5xx code the variant is recorded as successful with
all six steps executed; if the first 5xx-answered step is `s` the variant
is recorded as failed and no step after `s` executes; and over a whole
batch in which the server always replies (no lower-level exception), every
variant in the registry list is processed in order and the loop never
propagates an exception — a single variant's rejection never aborts the
batch. -/
theorem variant_failure_isolation
    (resp : Step → StepResult) (server : String → Step → StepResult)
    (names : List String) (v : String)
    (hserver : ∀ u s, (server u s).isReply = true) :
    ((∀ s ∈ session_steps, (resp s).isOkReply = true) →
      runVariant v resp =
        (session_steps.map (RunEvent.stepRun v) ++
          [RunEvent.recordSuccess v, RunEvent.teardownRun v], none)) ∧
    (∀ pre s post, session_steps = pre ++ s :: post →
      (∀ t ∈ pre, (resp t).isOkReply = true) → (resp s).is5xxReply = true →
      runVariant v resp =
        ((pre ++ [s]).map (RunEvent.stepRun v) ++
          [RunEvent.recordFail v, RunEvent.teardownRun v], none)) ∧
    run_tests server names =
      ((names.map fun u => (runVariant u (server u)).1).flatten, none) := by
  refine ⟨?_, ?_, run_tests_all_reply server hserver names⟩
  · intro hok
    have hb := runBody_all_ok resp session_steps hok
    simp [runVariant, hb]
  · intro pre s post hsplit hpre hs
    obtain ⟨c, m, hb⟩ := runBody_first_5xx resp pre s post hpre hs
    unfold runVariant
    rw [hsplit, hb]

/-- Witness for C5: with a server answering 250 everywhere except a 550 on
`rcpt`, the failing variant executes exactly connect, ehlo, rset, mail,
rcpt — not data — and is recorded as failed; a two-variant batch under an
all-250 server runs both variants to completion with no propagated
exception. -/
theorem variant_failure_isolation_witness :
    ((∀ u s, (serverOk u s).isReply = true) ∧
     (∀ t ∈ [Step.connect, Step.ehlo, Step.rset, Step.mail], (respW t).isOkReply = true) ∧
     (respW Step.rcpt).is5xxReply = true) ∧
    runVariant "BangPathTest" respW =
      (([Step.connect, Step.ehlo, Step.rset, Step.mail] ++ [Step.rcpt]).map
          (RunEvent.stepRun "BangPathTest") ++
        [RunEvent.recordFail "BangPathTest", RunEvent.teardownRun "BangPathTest"], none) ∧
    run_tests serverOk ["DefaultTest", "LocalTest"] =
      ((["DefaultTest", "LocalTest"].map fun u => (runVariant u (serverOk u)).1).flatten,
        none) :=
  ⟨⟨fun _ _ => rfl, by decide, by decide⟩,
   (variant_failure_isolation respW serverOk ["DefaultTest", "LocalTest"] "BangPathTest"
      fun _ _ => rfl).2.1
     [Step.connect, Step.ehlo, Step.rset, Step.mail] Step.rcpt [Step.data]
     rfl (by decide) (by decide),
   (variant_failure_isolation respW serverOk ["DefaultTest", "LocalTest"] "BangPathTest"
      fun _ _ => rfl).2.2⟩

/-- C6 counterexample: when variant "A" hits an exception that is not an
`SMTPError` (here a connection refusal at `connect`), its teardown still
runs, but the exception propagates out of the loop and variant "B" never
runs a single step — so a failure on one variant can prevent the next
variant from running. -/
theorem unexpected_failure_aborts_batch :
    run_tests serverAbort ["A", "B"] =
      ([RunEvent.stepRun "A" Step.connect, RunEvent.teardownRun "A"],
        some (Exn.other "ConnectionRefusedError")) ∧
    RunEvent.stepRun "B" Step.connect ∉ (run_tests serverAbort ["A", "B"]).1 ∧
    RunEvent.teardownRun "A" ∈ (run_tests serverAbort ["A", "B"]).1 := by
  refine ⟨by decide, by decide, by decide⟩

/-- C6 amended: the session teardown (`quit` followed by `close`) is
invoked, as the last action of the iteration, on every exit path — normal
completion, protocol error, or unexpected failure — so the per-test
session is always released; and whenever a variant's iteration does not
propagate an exception (normal completion or a caught `SMTPError`), the
runner continues with the remaining variants.  An unexpected
(non-`SMTPError`) failure still aborts the remaining variants after the
teardown, as the counterexample shows. -/
theorem teardown_on_every_path
    (v : String) (resp : Step → StepResult)
    (server : String → Step → StepResult) (names : List String) :
    (runVariant v resp).1.getLast? = some (RunEvent.teardownRun v) ∧
    ((runVariant v (server v)).2 = none →
      run_tests server (v :: names) =
        ((runVariant v (server v)).1 ++ (run_tests server names).1,
          (run_tests server names).2)) := by
  constructor
  · unfold runVariant
    cases hr : (runBody resp session_steps).2 with
    | none => simp [hr]
    | some e => cases e with
      | smtp c m => simp [hr]
      | other n => simp [hr]
  · intro h
    simp [run_tests, h]

/-- Witness for C6 at an all-250 server with two variants. -/
theorem teardown_on_every_path_witness :
    ((runVariant "A" (serverOk "A")).2 = none) ∧
    run_tests serverOk ["A", "B"] =
      ((runVariant "A" (serverOk "A")).1 ++ (run_tests serverOk ["B"]).1,
        (run_tests serverOk ["B"]).2) :=
  ⟨by decide, (teardown_on_every_path "A" (serverOk "A") serverOk ["B"]).2 (by decide)⟩

/-- C8: for every remote address of the shape `user@domain` (one `@`,
none inside the parts), the BangPath variant's recipient is the parts of
the remote address split on `@`, reversed and joined with `!` — that is,
`domain!user` — and its sender (inherited from `LocalTest.get_sender`) is
the local address unchanged. -/
theorem bangPath_recipient_reversed (user domain local_addr : List Char)
    (hu : '@' ∉ user) (hd : '@' ∉ domain) :
    BangPathTest.get_rcpt (user ++ '@' :: domain) = domain ++ '!' :: user ∧
    LocalTest.get_sender local_addr = local_addr := by
  refine ⟨?_, rfl⟩
  have hsplit : (user ++ '@' :: domain).splitOn '@' = [user, domain] := by
    rw [List.splitOn,
      List.splitOnP_first (· == '@') user
        (fun x hx hbeq => hu (eq_of_beq hbeq ▸ hx)) '@' (by simp),
      List.splitOnP_eq_single (· == '@') domain
        fun x hx hbeq => hd (eq_of_beq hbeq ▸ hx)]
  rw [BangPathTest.get_rcpt, hsplit]
  simp [List.intercalate, List.intersperse]

/-- Witness for C8 at `remote = user@example.com`: the recipient is
`example.com!user`. -/
theorem bangPath_recipient_reversed_witness :
    ('@' ∉ "user".toList) ∧ ('@' ∉ "example.com".toList) ∧
    BangPathTest.get_rcpt ("user".toList ++ '@' :: "example.com".toList) =
      "example.com".toList ++ '!' :: "user".toList :=
  ⟨by decide, by decide,
   (bangPath_recipient_reversed "user".toList "example.com".toList []
      (by decide) (by decide)).1⟩

/-- C9: within one invocation, the emitted per-variant progress sequence
follows the registry order exactly; when the baseline option is enabled at
start of run the baseline variant appears first with emitted index 1, and
every other variant keeps its relative order with its index shifted by
exactly one. -/
theorem progress_follows_registry_order (tests : List String) :
    (progressSeq false tests).map Prod.snd = tests ∧
    progressSeq true tests =
      (1, "BaseTest") :: ((progressSeq false tests).map fun p => (p.1 + 1, p.2)) ∧
    (progressSeq true TESTS).map Prod.snd = "BaseTest" :: TESTS := by
  refine ⟨enumFrom_map_snd 1 tests, ?_, enumFrom_map_snd 1 _⟩
  show List.enumFrom 1 ("BaseTest" :: tests) =
    (1, "BaseTest") :: ((List.enumFrom 1 tests).map fun p => (p.1 + 1, p.2))
  rw [← enumFrom_shift]
  rfl

/-- Witness for C9 at the registered battery itself. -/
theorem progress_follows_registry_order_witness :
    (progressSeq false TESTS).map Prod.snd = TESTS ∧
    progressSeq true TESTS =
      (1, "BaseTest") :: ((progressSeq false TESTS).map fun p => (p.1 + 1, p.2)) ∧
    (progressSeq true TESTS).map Prod.snd = "BaseTest" :: TESTS :=
  progress_follows_registry_order TESTS

/-- C10: `run_tests(..., base_test=True)` mutates the shared module-level
`TESTS` registry in place, prepending the baseline variant and never
removing it: after the call the registry is one element longer with
`BaseTest` at position 0, and a second call in the same process prepends a
second `BaseTest` entry. -/
theorem base_test_mutates_registry :
    (∀ tests : List String, run_tests_registry true tests = "BaseTest" :: tests) ∧
    (run_tests_registry true TESTS).length = TESTS.length + 1 ∧
    (run_tests_registry true TESTS).headI = "BaseTest" ∧
    run_tests_registry true (run_tests_registry true TESTS) =
      "BaseTest" :: "BaseTest" :: TESTS :=
  ⟨fun _ => rfl, rfl, rfl, rfl⟩

end OpenMailRelay
